import Mathlib

/-!
Verification of the Aircraft_Control repository against its specification.

The Python sources (aircraft_model.py, landing_controller.py, simulation.py,
stability_analysis.py) are shallowly embedded below: machine floats become
real numbers, mutable object fields become explicit state records threaded
through the functions, Python `raise` on float division by zero becomes
`Option.none`, and `numpy` clipping becomes `min`/`max` over ℝ.
-/

open scoped Classical

noncomputable section

/-- `np.clip(x, lo, hi)`: saturate `x` into the interval `[lo, hi]`. -/
def pclip (x lo hi : ℝ) : ℝ := min (max x lo) hi

theorem pclip_le {x lo hi : ℝ} (h : lo ≤ hi) : lo ≤ pclip x lo hi ∧ pclip x lo hi ≤ hi :=
  ⟨le_min (le_max_right x lo) h, min_le_right _ _⟩

/-- `np.deg2rad`: degrees to radians. -/
def deg2rad (x : ℝ) : ℝ := x * Real.pi / 180

/-- `np.arctan2 y x`: four-quadrant arctangent (0 at the origin, as in numpy). -/
def atan2 (y x : ℝ) : ℝ :=
  if 0 < x then Real.arctan (y / x)
  else if x < 0 ∧ 0 ≤ y then Real.arctan (y / x) + Real.pi
  else if x < 0 ∧ y < 0 then Real.arctan (y / x) - Real.pi
  else if x = 0 ∧ 0 < y then Real.pi / 2
  else if x = 0 ∧ y < 0 then -(Real.pi / 2)
  else 0

/-- The aircraft parameter record set up in `AircraftModel.__init__`
(aircraft_model.py).  All fields are plain real constants, never mutated. -/
structure AircraftModel where
  mass : ℝ
  wing_area : ℝ
  wing_span : ℝ
  chord : ℝ
  Ixx : ℝ
  Iyy : ℝ
  Izz : ℝ
  Ixz : ℝ
  CL0 : ℝ
  CLalpha : ℝ
  CLq : ℝ
  CLde : ℝ
  CD0 : ℝ
  CDalpha : ℝ
  CDde : ℝ
  Cm0 : ℝ
  Cmalpha : ℝ
  Cmq : ℝ
  Cmde : ℝ
  max_thrust : ℝ
  g : ℝ
  rho : ℝ

/-- The concrete Cessna-172-like parameter values from `AircraftModel.__init__`. -/
def cessna : AircraftModel where
  mass := 1100.0
  wing_area := 16.2
  wing_span := 11.0
  chord := 1.5
  Ixx := 1285.0
  Iyy := 1824.0
  Izz := 2666.0
  Ixz := 0.0
  CL0 := 0.28
  CLalpha := 4.58
  CLq := 3.9
  CLde := 0.43
  CD0 := 0.031
  CDalpha := 0.13
  CDde := 0.06
  Cm0 := 0.04
  Cmalpha := -0.61
  Cmq := -12.4
  Cmde := -1.28
  max_thrust := 1200.0
  g := 9.81
  rho := 1.225

/-- The dictionary returned by `AircraftModel.get_trim_condition`. -/
structure TrimState where
  velocity : ℝ
  alpha : ℝ
  theta : ℝ
  q : ℝ
  altitude : ℝ
  CL : ℝ
  CD : ℝ
  elevator : ℝ
  thrust : ℝ

/-- `AircraftModel.get_trim_condition` (aircraft_model.py, lines 66-103).
Each Python float division raises `ZeroDivisionError` when its divisor is
exactly zero; that failure is modelled as `none`. -/
def get_trim_condition (m : AircraftModel) (velocity altitude : ℝ) : Option TrimState :=
  let q := 0.5 * m.rho * velocity ^ 2
  if q * m.wing_area = 0 then none
  else
    let CL_trim := (m.mass * m.g) / (q * m.wing_area)
    if m.CLalpha = 0 then none
    else
      let alpha_trim := (CL_trim - m.CL0) / m.CLalpha
      let CD_trim := m.CD0 + m.CDalpha * alpha_trim
      let thrust_trim := CD_trim * q * m.wing_area
      if m.Cmde = 0 then none
      else
        let de_trim := -(m.Cm0 + m.Cmalpha * alpha_trim) / m.Cmde
        some { velocity := velocity, alpha := alpha_trim, theta := alpha_trim, q := 0,
               altitude := altitude, CL := CL_trim, CD := CD_trim,
               elevator := de_trim, thrust := thrust_trim }

/-- C4: for every velocity V > 0 (at altitude 0), `get_trim_condition` on the
repository's aircraft model returns a trim record whose lift coefficient is
exactly `mass * g / (0.5 * rho * V^2 * S)` and whose velocity field is exactly
the requested V. -/
theorem C4_trim_CL_and_velocity (V : ℝ) (hV : 0 < V) :
    ∃ t : TrimState, get_trim_condition cessna V 0 = some t ∧
      t.CL = cessna.mass * cessna.g / (0.5 * cessna.rho * V ^ 2 * cessna.wing_area) ∧
      t.velocity = V := by
  have hq : (0.5 * cessna.rho * V ^ 2) * cessna.wing_area ≠ 0 := by
    have hV2 : V ^ 2 ≠ 0 := pow_ne_zero 2 (ne_of_gt hV)
    simp only [cessna]
    positivity
  unfold get_trim_condition
  rw [if_neg hq, if_neg (by norm_num [cessna]), if_neg (by norm_num [cessna])]
  exact ⟨_, rfl, by simp only [mul_assoc], rfl⟩

/-- Witness for C4 at V = 30. -/
theorem C4_trim_CL_and_velocity_witness :
    (0 : ℝ) < 30 ∧
      ∃ t : TrimState, get_trim_condition cessna 30 0 = some t ∧
        t.CL = cessna.mass * cessna.g / (0.5 * cessna.rho * 30 ^ 2 * cessna.wing_area) ∧
        t.velocity = 30 :=
  ⟨by norm_num, C4_trim_CL_and_velocity 30 (by norm_num)⟩

/-- C9: `get_trim_condition` on the repository's model fails (the embedded
`none`, i.e. Python's `ZeroDivisionError` from float division) exactly when the
wing area or the dynamic pressure `0.5 * rho * velocity^2` is non-positive —
with the model's positive wing area and density this means exactly `velocity = 0`
— and for every positive velocity it returns a trim record without failing. -/
theorem C9_trim_failure_iff (v alt : ℝ) :
    (get_trim_condition cessna v alt = none ↔
      (cessna.wing_area ≤ 0 ∨ 0.5 * cessna.rho * v ^ 2 ≤ 0)) ∧
    (0 < v → ∃ t : TrimState, get_trim_condition cessna v alt = some t) := by
  constructor
  · constructor
    · intro hnone
      unfold get_trim_condition at hnone
      by_cases hq : (0.5 * cessna.rho * v ^ 2) * cessna.wing_area = 0
      · right
        have hv2 : v ^ 2 = 0 := by
          by_contra hv2
          simp only [cessna] at hq
          exact absurd hq (by positivity)
        rw [hv2]; norm_num
      · rw [if_neg hq, if_neg (by norm_num [cessna]), if_neg (by norm_num [cessna])] at hnone
        exact absurd hnone (by simp)
    · intro hle
      have hv : v = 0 := by
        by_contra hv
        rcases hle with h | h
        · exact absurd h (by norm_num [cessna])
        · have hpos : (0:ℝ) < 0.5 * cessna.rho * v ^ 2 := by
            simp only [cessna]; positivity
          linarith
      subst hv
      unfold get_trim_condition
      rw [if_pos (by norm_num)]
  · intro hv
    have hq : (0.5 * cessna.rho * v ^ 2) * cessna.wing_area ≠ 0 := by
      have hV2 : v ^ 2 ≠ 0 := pow_ne_zero 2 (ne_of_gt hv)
      simp only [cessna]
      positivity
    unfold get_trim_condition
    rw [if_neg hq, if_neg (by norm_num [cessna]), if_neg (by norm_num [cessna])]
    exact ⟨_, rfl⟩

/-- Witness for C9 at v = 30, altitude 0. -/
theorem C9_trim_failure_iff_witness :
    (0 : ℝ) < 30 ∧ ∃ t : TrimState, get_trim_condition cessna 30 0 = some t :=
  ⟨by norm_num, (C9_trim_failure_iff 30 0).2 (by norm_num)⟩

/-! ## Landing controller (landing_controller.py) -/

/-- The landing-phase strings used by `LandingController`. -/
inductive Phase where
  | approach
  | glide_slope
  | flare
  | touchdown
deriving DecidableEq

namespace LC

/-! Controller configuration constants from `LandingController.__init__`.
They are set once in the constructor and never mutated. -/

def glide_slope_angle : ℝ := deg2rad (-3.0)
def flare_altitude : ℝ := 20.0
def touchdown_velocity : ℝ := 25.0
def Kp_theta : ℝ := 3.0
def Ki_theta : ℝ := 0.3
def Kd_theta : ℝ := 1.5
def Kp_alt : ℝ := 0.08
def Ki_alt : ℝ := 0.01
def Kd_alt : ℝ := 0.5
def Kp_vel : ℝ := 0.4
def Ki_vel : ℝ := 0.05

end LC

/-- The mutable fields of a `LandingController` instance: the three
integrator accumulators, the two previous errors kept for derivative terms,
and the current landing phase. -/
structure CtrlState where
  int_theta : ℝ
  int_alt : ℝ
  int_vel : ℝ
  prev_error_theta : ℝ
  prev_error_alt : ℝ
  phase : Phase

/-- The initial values these fields get in `LandingController.__init__`. -/
def initCtrlState : CtrlState :=
  { int_theta := 0, int_alt := 0, int_vel := 0,
    prev_error_theta := 0, prev_error_alt := 0, phase := Phase.approach }

/-- `LandingController.reset` (lines 52-59): sets every mutable field back to
its initial value, regardless of the state the controller was left in. -/
def resetCtrl (_cs : CtrlState) : CtrlState := initCtrlState

/-- `LandingController.compute_glide_slope_reference` (lines 61-72). -/
def compute_glide_slope_reference (horizontal_distance : ℝ) : ℝ :=
  max 0 (-horizontal_distance * Real.tan LC.glide_slope_angle)

/-- `LandingController.update_phase` (lines 98-107): the landing phase is
recomputed from the current altitude and distance alone. -/
def update_phase (altitude distance_to_touchdown : ℝ) : Phase :=
  if altitude ≤ 0.5 then Phase.touchdown
  else if altitude < LC.flare_altitude then Phase.flare
  else if altitude < 200 ∧ distance_to_touchdown < 4000 then Phase.glide_slope
  else Phase.approach

/-- The dictionary returned by `LandingController.compute_control`. -/
structure CtrlOut where
  elevator : ℝ
  throttle : ℝ
  phase : Phase

/-- The per-phase branch chain of `LandingController.compute_control`
(lines 128-225): from the pre-call `CtrlState` and the inputs, produce the raw
(pre-clipping) elevator and throttle together with the post-call `CtrlState`.
The phase used by every branch is the freshly recomputed one, as in the source
(`self.update_phase(...)` runs first). -/
def compute_control_raw (cs : CtrlState) (velocity altitude theta _q : ℝ)
    (distance_to_touchdown dt : ℝ) : (ℝ × ℝ) × CtrlState :=
  let ph := update_phase altitude distance_to_touchdown
  if ph = Phase.approach then
      let theta_cmd : ℝ := 0.0
      let error_theta := theta_cmd - theta
      let int_theta := cs.int_theta + error_theta * dt
      let d_error_theta := (error_theta - cs.prev_error_theta) / dt
      let elevator := LC.Kp_theta * error_theta + LC.Ki_theta * int_theta +
        LC.Kd_theta * d_error_theta
      let error_vel := 33.0 - velocity
      let int_vel := cs.int_vel + error_vel * dt
      let throttle := LC.Kp_vel * error_vel + LC.Ki_vel * int_vel
      ((elevator, throttle),
       { cs with int_theta := int_theta, int_vel := int_vel,
                 prev_error_theta := error_theta, phase := ph })
    else if ph = Phase.glide_slope then
      let ref_altitude := compute_glide_slope_reference distance_to_touchdown
      let error_alt := ref_altitude - altitude
      let int_alt := pclip (cs.int_alt + error_alt * dt) (-50) 50
      let d_error_alt := (error_alt - cs.prev_error_alt) / dt
      let theta_cmd := pclip (0.12 * error_alt + 0.02 * int_alt + 0.4 * d_error_alt)
        (-0.12) 0.08
      let error_theta := theta_cmd - theta
      let int_theta := cs.int_theta + error_theta * dt
      let d_error_theta := (error_theta - cs.prev_error_theta) / dt
      let elevator := LC.Kp_theta * error_theta + LC.Ki_theta * int_theta +
        LC.Kd_theta * d_error_theta
      let error_vel := 30.0 - velocity
      let int_vel := cs.int_vel + error_vel * dt
      let throttle := 0.7 * (LC.Kp_vel * error_vel + LC.Ki_vel * int_vel)
      ((elevator, throttle),
       { cs with int_alt := int_alt, prev_error_alt := error_alt,
                 int_theta := int_theta, int_vel := int_vel,
                 prev_error_theta := error_theta, phase := ph })
    else if ph = Phase.flare then
      let flare_progress := 1.0 - altitude / LC.flare_altitude
      let theta_cmd := pclip (deg2rad (-2.0) + deg2rad 7.0 * flare_progress)
        (deg2rad (-5.0)) (deg2rad 8.0)
      let error_theta := theta_cmd - theta
      let int_theta := cs.int_theta + error_theta * dt
      let d_error_theta := (error_theta - cs.prev_error_theta) / dt
      let elevator := 4.0 * error_theta + 0.8 * int_theta + 2.0 * d_error_theta
      let error_vel := 27.0 - velocity
      let int_vel := cs.int_vel + error_vel * dt
      let throttle := 0.5 * (LC.Kp_vel * error_vel + LC.Ki_vel * int_vel)
      ((elevator, throttle),
       { cs with int_theta := int_theta, int_vel := int_vel,
                 prev_error_theta := error_theta, phase := ph })
    else if ph = Phase.touchdown then
      let theta_cmd := deg2rad 2.0
      let error_theta := theta_cmd - theta
      let elevator := 2.0 * error_theta
      ((elevator, 0.0), { cs with phase := ph })
    else
      ((0.0, 0.0), { cs with phase := ph })

/-- `LandingController.compute_control` (lines 109-237): run the per-phase
branch, then clip the elevator to [-0.4, 0.4] and the throttle to [0, 1]
(lines 227-229) and return the command dictionary carrying the current phase,
together with the post-call controller state. -/
def compute_control (cs : CtrlState) (velocity altitude theta q : ℝ)
    (distance_to_touchdown dt : ℝ) : CtrlOut × CtrlState :=
  let raw := compute_control_raw cs velocity altitude theta q distance_to_touchdown dt
  ({ elevator := pclip raw.1.1 (-0.4) 0.4,
     throttle := pclip raw.1.2 0 1,
     phase := update_phase altitude distance_to_touchdown }, raw.2)

/-- C1: in every landing phase, for every input state, distance and dt > 0,
the command returned by `compute_control` has its elevator in [-0.4, 0.4] rad
and its throttle in [0, 1] — the final clipping applies unconditionally. -/
theorem C1_control_output_clamped (cs : CtrlState) (velocity altitude theta q : ℝ)
    (distance_to_touchdown dt : ℝ) (_hdt : 0 < dt) :
    -0.4 ≤ (compute_control cs velocity altitude theta q distance_to_touchdown dt).1.elevator ∧
    (compute_control cs velocity altitude theta q distance_to_touchdown dt).1.elevator ≤ 0.4 ∧
    0 ≤ (compute_control cs velocity altitude theta q distance_to_touchdown dt).1.throttle ∧
    (compute_control cs velocity altitude theta q distance_to_touchdown dt).1.throttle ≤ 1 := by
  refine ⟨(pclip_le (by norm_num)).1, (pclip_le (by norm_num)).2,
          (pclip_le (by norm_num)).1, (pclip_le (by norm_num)).2⟩

/-- Witness for C1: a concrete call with dt = 1. -/
theorem C1_control_output_clamped_witness :
    (0:ℝ) < 1 ∧
    (-0.4 ≤ (compute_control initCtrlState 30 100 0 0 3000 1).1.elevator ∧
     (compute_control initCtrlState 30 100 0 0 3000 1).1.elevator ≤ 0.4 ∧
     0 ≤ (compute_control initCtrlState 30 100 0 0 3000 1).1.throttle ∧
     (compute_control initCtrlState 30 100 0 0 3000 1).1.throttle ≤ 1) :=
  ⟨by norm_num, C1_control_output_clamped initCtrlState 30 100 0 0 3000 1 (by norm_num)⟩

/-- C2: the landing phase is a pure function of (altitude, distance) — the
phase emitted by a control step is `update_phase altitude distance` for every
incoming controller state — and `update_phase` realises exactly the bands
touchdown ⟺ h ≤ 0.5, flare ⟺ 0.5 < h < 20, glide_slope ⟺ 20 ≤ h < 200 ∧
d < 4000, approach otherwise, including the four concrete spec points. -/
theorem C2_phase_pure_function (altitude distance : ℝ) :
    (∀ (cs : CtrlState) (velocity theta q dt : ℝ),
      (compute_control cs velocity altitude theta q distance dt).1.phase =
        update_phase altitude distance) ∧
    (update_phase altitude distance = Phase.touchdown ↔ altitude ≤ 0.5) ∧
    (update_phase altitude distance = Phase.flare ↔ 0.5 < altitude ∧ altitude < 20) ∧
    (update_phase altitude distance = Phase.glide_slope ↔
      20 ≤ altitude ∧ altitude < 200 ∧ distance < 4000) ∧
    (update_phase altitude distance = Phase.approach ↔
      20 ≤ altitude ∧ (200 ≤ altitude ∨ 4000 ≤ distance)) ∧
    update_phase 300 5000 = Phase.approach ∧
    update_phase 100 3500 = Phase.glide_slope ∧
    update_phase 10 distance = Phase.flare ∧
    update_phase 0.3 distance = Phase.touchdown := by
  refine ⟨fun cs velocity theta q dt => rfl, ?_, ?_, ?_, ?_, ?_, ?_, ?_, ?_⟩
  · unfold update_phase LC.flare_altitude
    split_ifs with h1 h2 h3 <;> [exact iff_of_true rfl h1; skip; skip; skip] <;>
      exact iff_of_false (by simp) h1
  · unfold update_phase LC.flare_altitude
    split_ifs with h1 h2 h3
    · exact iff_of_false (by simp) (by intro hh; linarith [hh.1])
    · exact iff_of_true rfl ⟨by linarith [not_le.1 h1], by linarith⟩
    · exact iff_of_false (by simp) (by intro hh; linarith [hh.2])
    · exact iff_of_false (by simp) (by intro hh; linarith [hh.2])
  · unfold update_phase LC.flare_altitude
    split_ifs with h1 h2 h3
    · exact iff_of_false (by simp) (by intro hh; linarith [hh.1])
    · exact iff_of_false (by simp) (by intro hh; linarith [hh.1])
    · exact iff_of_true rfl ⟨by linarith [not_lt.1 h2], h3.1, h3.2⟩
    · exact iff_of_false (by simp) (by intro hh; exact h3 ⟨hh.2.1, hh.2.2⟩)
  · unfold update_phase LC.flare_altitude
    split_ifs with h1 h2 h3
    · exact iff_of_false (by simp) (by intro hh; linarith [hh.1])
    · exact iff_of_false (by simp) (by intro hh; linarith [hh.1])
    · exact iff_of_false (by simp)
        (by intro hh; rcases hh.2 with h | h <;> [linarith [h3.1]; linarith [h3.2]])
    · refine iff_of_true rfl ⟨by linarith [not_lt.1 h2], ?_⟩
      rcases not_and_or.1 h3 with h | h
      · exact Or.inl (by linarith [not_lt.1 h])
      · exact Or.inr (by linarith [not_lt.1 h])
  · unfold update_phase LC.flare_altitude
    rw [if_neg (by norm_num), if_neg (by norm_num), if_neg (by norm_num)]
  · unfold update_phase LC.flare_altitude
    rw [if_neg (by norm_num), if_neg (by norm_num), if_pos (by norm_num)]
  · unfold update_phase LC.flare_altitude
    rw [if_neg (by norm_num), if_pos (by norm_num)]
  · unfold update_phase
    rw [if_pos (by norm_num)]

/-! ## Flight simulator (simulation.py) -/

/-- The 6-component longitudinal state vector `[u, w, q, theta, x, h]`. -/
structure SimState where
  u : ℝ
  w : ℝ
  q : ℝ
  theta : ℝ
  x : ℝ
  h : ℝ

/-- Componentwise sum of state vectors (numpy array addition). -/
def sadd (a b : SimState) : SimState :=
  ⟨a.u + b.u, a.w + b.w, a.q + b.q, a.theta + b.theta, a.x + b.x, a.h + b.h⟩

/-- Scalar multiple of a state vector (numpy scalar-array product). -/
def ssmul (c : ℝ) (a : SimState) : SimState :=
  ⟨c * a.u, c * a.w, c * a.q, c * a.theta, c * a.x, c * a.h⟩

/-- `FlightSimulator.longitudinal_dynamics` (simulation.py, lines 17-78):
the nonlinear longitudinal equations of motion, returning the derivative
vector.  (The source also takes an unused time argument.)  The pitch-damping
term divides by `2V`; as in the other embedded divisions this is exact real
division, the trajectories of interest keep `V` well away from zero. -/
def longitudinal_dynamics (m : AircraftModel) (s : SimState) (control : CtrlOut) : SimState :=
  let V := Real.sqrt (s.u ^ 2 + s.w ^ 2)
  let alpha := atan2 s.w s.u
  let q_bar := 0.5 * m.rho * V ^ 2
  let elevator := control.elevator
  let throttle := control.throttle
  let CL := pclip (m.CL0 + m.CLalpha * alpha + m.CLde * elevator) (-1.5) 1.8
  let CD := max (m.CD0 + m.CDalpha * alpha ^ 2 + m.CDde * |elevator|) 0.02
  let L := q_bar * m.wing_area * CL
  let D := q_bar * m.wing_area * CD
  let T := throttle * m.max_thrust
  let X := T * Real.cos alpha - D - m.mass * m.g * Real.sin s.theta
  let Z := -T * Real.sin alpha - L + m.mass * m.g * Real.cos s.theta
  let Cm := m.Cm0 + m.Cmalpha * alpha + m.Cmq * s.q * m.chord / (2 * V) + m.Cmde * elevator
  let M := q_bar * m.wing_area * m.chord * Cm
  ⟨X / m.mass + s.w * s.q,
   Z / m.mass - s.u * s.q,
   M / m.Iyy,
   s.q,
   s.u * Real.cos s.theta + s.w * Real.sin s.theta,
   s.u * Real.sin s.theta - s.w * Real.cos s.theta⟩

/-- One classical RK4 step of `simulate_landing` (lines 136-141), holding the
control command constant across the four stages. -/
def rk4_step (m : AircraftModel) (state : SimState) (control : CtrlOut) (dt : ℝ) : SimState :=
  let k1 := longitudinal_dynamics m state control
  let k2 := longitudinal_dynamics m (sadd state (ssmul (0.5 * dt) k1)) control
  let k3 := longitudinal_dynamics m (sadd state (ssmul (0.5 * dt) k2)) control
  let k4 := longitudinal_dynamics m (sadd state (ssmul dt k3)) control
  sadd state (ssmul (dt / 6.0) (sadd (sadd k1 (ssmul 2 k2)) (sadd (ssmul 2 k3) k4)))

/-- The post-step numerical guards of `simulate_landing` (lines 144-146). -/
def clip_state (s : SimState) : SimState :=
  { s with u := pclip s.u 18.0 45.0,
           q := pclip s.q (-0.5) 0.5,
           theta := pclip s.theta (-0.5) 0.5 }

/-- The `while` loop of `FlightSimulator.simulate_landing` (lines 113-158),
written with an explicit fuel argument (the caller supplies enough fuel for
every iteration the source loop performs).  Returns the time, state and
control entries appended by the loop, in order.  The early `break` on ground
contact appends the step's records first, exactly as the source does (the
subsequent zeroing of the local altitude variable happens after the copy was
stored, so the recorded state is untouched). -/
def sim_loop (m : AircraftModel) (x_touchdown duration dt : ℝ) :
    ℕ → CtrlState → SimState → ℝ → List ℝ × List SimState × List CtrlOut
  | 0, _, _, _ => ([], [], [])
  | fuel + 1, cs, state, t =>
    if t < duration ∧ 0 < state.h then
      let V := Real.sqrt (state.u ^ 2 + state.w ^ 2)
      let distance_to_touchdown := x_touchdown - state.x
      let cc := compute_control cs V state.h state.theta state.q distance_to_touchdown dt
      let state' := clip_state (rk4_step m state cc.1 dt)
      let t' := t + dt
      if state'.h ≤ 0 then ([t'], [state'], [cc.1])
      else
        let rest := sim_loop m x_touchdown duration dt fuel cc.2 state' t'
        (t' :: rest.1, state' :: rest.2.1, cc.1 :: rest.2.2)
    else ([], [], [])

/-- `FlightSimulator.simulate_landing` (lines 80-160): reset the controller,
seed the histories with time 0 and the initial state, and run the loop.
`x_touchdown` is the `initial_state['x_touchdown']` entry (default 3000.0 at
the call site).  The fuel `⌈duration/dt⌉ + 1` covers every iteration the
source loop performs when `dt > 0`, since the loop runs at most while
`k·dt < duration`. -/
def simulate_landing (m : AircraftModel) (cs : CtrlState) (init : SimState)
    (x_touchdown duration dt : ℝ) : List ℝ × List SimState × List CtrlOut :=
  let cs0 := resetCtrl cs
  let rest := sim_loop m x_touchdown duration dt (⌈duration / dt⌉₊ + 1) cs0 init 0
  (0 :: rest.1, init :: rest.2.1, rest.2.2)

/-- C3: two runs of `simulate_landing` with the same model, the same initial
state, the same threshold position, duration and dt produce identical
histories regardless of the controller accumulator state before each run —
`reset()` (which `simulate_landing` applies) erases every mutable controller
field, so there is no hidden state carried across runs. -/
theorem C3_rerun_identical (m : AircraftModel) (cs1 cs2 : CtrlState) (init : SimState)
    (x_touchdown duration dt : ℝ) :
    simulate_landing m cs1 init x_touchdown duration dt =
      simulate_landing m cs2 init x_touchdown duration dt := rfl

/-- C10: every `simulate_landing` result has time and state histories of equal
length N + 1 and a control history of length N, and (`List.Forall₂` over the
control history and the states it was computed from) the i-th control command
is the output of `compute_control` on the i-th recorded state, for some
controller accumulator state. -/
theorem C10_history_shape (m : AircraftModel) (cs : CtrlState) (init : SimState)
    (x_touchdown duration dt : ℝ) :
    (simulate_landing m cs init x_touchdown duration dt).1.length =
      (simulate_landing m cs init x_touchdown duration dt).2.1.length ∧
    (simulate_landing m cs init x_touchdown duration dt).2.1.length =
      (simulate_landing m cs init x_touchdown duration dt).2.2.length + 1 ∧
    List.Forall₂ (fun (c : CtrlOut) (s : SimState) => ∃ γ : CtrlState,
        c = (compute_control γ (Real.sqrt (s.u ^ 2 + s.w ^ 2)) s.h s.theta s.q
          (x_touchdown - s.x) dt).1)
      (simulate_landing m cs init x_touchdown duration dt).2.2
      (simulate_landing m cs init x_touchdown duration dt).2.1.dropLast := by
  have key : ∀ (fuel : ℕ) (γ : CtrlState) (st : SimState) (t : ℝ),
      (sim_loop m x_touchdown duration dt fuel γ st t).1.length =
        (sim_loop m x_touchdown duration dt fuel γ st t).2.1.length ∧
      (sim_loop m x_touchdown duration dt fuel γ st t).2.1.length =
        (sim_loop m x_touchdown duration dt fuel γ st t).2.2.length ∧
      List.Forall₂ (fun (c : CtrlOut) (s : SimState) => ∃ γ' : CtrlState,
          c = (compute_control γ' (Real.sqrt (s.u ^ 2 + s.w ^ 2)) s.h s.theta s.q
            (x_touchdown - s.x) dt).1)
        (sim_loop m x_touchdown duration dt fuel γ st t).2.2
        ((st :: (sim_loop m x_touchdown duration dt fuel γ st t).2.1).dropLast) := by
    intro fuel
    induction fuel with
    | zero => intro γ st t; exact ⟨rfl, rfl, List.Forall₂.nil⟩
    | succ fuel ih =>
      intro γ st t
      rw [sim_loop]
      by_cases hcond : t < duration ∧ 0 < st.h
      · rw [if_pos hcond]
        dsimp only
        split_ifs with hground
        · exact ⟨rfl, rfl, List.Forall₂.cons ⟨γ, rfl⟩ List.Forall₂.nil⟩
        · exact ⟨congrArg (· + 1) (ih _ _ _).1, congrArg (· + 1) (ih _ _ _).2.1,
                 List.Forall₂.cons ⟨γ, rfl⟩ (ih _ _ _).2.2⟩
      · rw [if_neg hcond]
        exact ⟨rfl, rfl, List.Forall₂.nil⟩
  obtain ⟨k1, k2, k3⟩ := key (⌈duration / dt⌉₊ + 1) (resetCtrl cs) init 0
  exact ⟨congrArg (· + 1) k1, congrArg (· + 1) k2, k3⟩

/-! ## Landing performance evaluation (simulation.py, lines 162-210) -/

/-- The performance dictionary built by
`FlightSimulator.evaluate_landing_performance`. -/
structure Perf where
  touchdown_speed_ms : ℝ
  touchdown_vertical_rate_ms : ℝ
  touchdown_pitch_deg : ℝ
  mean_glide_slope_error_m : ℝ
  max_glide_slope_error_m : ℝ
  landing_success : Prop

/-- The glide-slope error collection loop (lines 183-195): walk the state
history alongside the control history (indices past the control history are
skipped), and for each step whose recorded phase is `glide_slope` and whose
distance to the hard-coded 3000 m threshold is positive, record
`|h - (3000 - x) * tan 3°|`. -/
def gs_errors : List SimState → List CtrlOut → List ℝ
  | _, [] => []
  | [], _ => []
  | s :: ss, c :: ccs =>
    (if c.phase = Phase.glide_slope ∧ 0 < 3000.0 - s.x
     then [|s.h - (3000.0 - s.x) * Real.tan (deg2rad 3.0)|] else []) ++ gs_errors ss ccs

/-- `np.max` of a nonempty list (the caller guards the empty case). -/
def listMax : List ℝ → ℝ
  | [] => 0
  | a :: t => t.foldl max a

/-- `FlightSimulator.evaluate_landing_performance` (lines 162-210).
`state_history[-1]` raises `IndexError` on an empty history, modelled as
`none`.  The unused `time_history` parameter is kept from the source. -/
def evaluate_landing_performance (_time_history : List ℝ) (state_history : List SimState)
    (control_history : List CtrlOut) : Option Perf :=
  match state_history.getLast? with
  | none => none
  | some final_state =>
    let V_td := Real.sqrt (final_state.u ^ 2 + final_state.w ^ 2)
    let touchdown_rate := -final_state.w
    let errs := gs_errors state_history control_history
    some { touchdown_speed_ms := V_td,
           touchdown_vertical_rate_ms := touchdown_rate,
           touchdown_pitch_deg := final_state.theta * 180 / Real.pi,
           mean_glide_slope_error_m := if errs = [] then 0 else errs.sum / (errs.length : ℝ),
           max_glide_slope_error_m := if errs = [] then 0 else listMax errs,
           landing_success := |touchdown_rate| < 3.0 ∧ V_td > 18 ∧ V_td < 35 }

/-- C7: the touchdown metrics are pure functions of the final state —
speed is `sqrt (u² + w²)`, vertical rate is `-w`, and the success flag holds
exactly when `|rate| < 3` and `18 < speed < 35`; in particular a trajectory
ending at exactly h = 0, u = 25, w = 0, θ = 0 reports speed 25, rate 0 and
success. -/
theorem C7_performance_roundtrip (times : List ℝ) (states : List SimState)
    (ctrls : List CtrlOut) (fin : SimState) (hlast : states.getLast? = some fin) :
    ∃ p : Perf, evaluate_landing_performance times states ctrls = some p ∧
      p.touchdown_speed_ms = Real.sqrt (fin.u ^ 2 + fin.w ^ 2) ∧
      p.touchdown_vertical_rate_ms = -fin.w ∧
      (p.landing_success ↔ |-fin.w| < 3.0 ∧ Real.sqrt (fin.u ^ 2 + fin.w ^ 2) > 18 ∧
        Real.sqrt (fin.u ^ 2 + fin.w ^ 2) < 35) ∧
      (fin.h = 0 → fin.u = 25 → fin.w = 0 → fin.theta = 0 →
        p.touchdown_speed_ms = 25 ∧ p.touchdown_vertical_rate_ms = 0 ∧ p.landing_success) := by
  unfold evaluate_landing_performance
  rw [hlast]
  refine ⟨_, rfl, rfl, rfl, Iff.rfl, ?_⟩
  intro _h0 hu hw _ht
  have hs : Real.sqrt (fin.u ^ 2 + fin.w ^ 2) = 25 := by
    rw [hu, hw, show (25:ℝ) ^ 2 + 0 ^ 2 = 25 ^ 2 by norm_num]
    exact Real.sqrt_sq (by norm_num)
  refine ⟨hs, by rw [hw]; norm_num, ?_⟩
  show |-fin.w| < 3.0 ∧ Real.sqrt (fin.u ^ 2 + fin.w ^ 2) > 18 ∧
    Real.sqrt (fin.u ^ 2 + fin.w ^ 2) < 35
  rw [hs, hw]
  norm_num

/-- Witness for C7: the one-state trajectory ending at h=0, u=25, w=0, θ=0. -/
theorem C7_performance_roundtrip_witness :
    ([(⟨25, 0, 0, 0, 0, 0⟩ : SimState)].getLast? = some (⟨25, 0, 0, 0, 0, 0⟩ : SimState)) ∧
    ∃ p : Perf, evaluate_landing_performance [] [⟨25, 0, 0, 0, 0, 0⟩] [] = some p ∧
      p.touchdown_speed_ms = 25 ∧ p.touchdown_vertical_rate_ms = 0 ∧ p.landing_success := by
  refine ⟨rfl, ?_⟩
  obtain ⟨p, hp, _, _, _, hfin⟩ :=
    C7_performance_roundtrip [] [⟨25, 0, 0, 0, 0, 0⟩] [] ⟨25, 0, 0, 0, 0, 0⟩ rfl
  obtain ⟨h1, h2, h3⟩ := hfin rfl rfl rfl rfl
  exact ⟨p, hp, h1, h2, h3⟩

/-- The glide-slope sample list in the words of the (amended) claim: one
sample per paired (state, control) step whose recorded phase is `glide_slope`
and whose state lies short of the fixed 3000 m threshold, the sample being
`|h - (3000 - x) * tan 3°|`. -/
def gs_samples_spec (states : List SimState) (ctrls : List CtrlOut) : List ℝ :=
  ((states.zip ctrls).filter fun sc =>
      decide (sc.2.phase = Phase.glide_slope ∧ sc.1.x < 3000.0)).map
    fun sc => |sc.1.h - (3000.0 - sc.1.x) * Real.tan (deg2rad 3.0)|

theorem gs_errors_eq_spec : ∀ (states : List SimState) (ctrls : List CtrlOut),
    gs_errors states ctrls = gs_samples_spec states ctrls := by
  intro states
  induction states with
  | nil => intro ctrls; cases ctrls <;> rfl
  | cons s ss ih =>
    intro ctrls
    cases ctrls with
    | nil => rfl
    | cons c ccs =>
      show (if c.phase = Phase.glide_slope ∧ 0 < 3000.0 - s.x
          then [|s.h - (3000.0 - s.x) * Real.tan (deg2rad 3.0)|] else []) ++
          gs_errors ss ccs = gs_samples_spec (s :: ss) (c :: ccs)
      unfold gs_samples_spec
      rw [List.zip_cons_cons, List.filter_cons]
      by_cases hc : c.phase = Phase.glide_slope ∧ s.x < 3000.0
      · rw [if_pos ⟨hc.1, by linarith [hc.2]⟩,
            if_pos (show decide ((s, c).2.phase = Phase.glide_slope ∧ (s, c).1.x < 3000.0) =
              true by simp only [decide_eq_true_eq]; exact hc)]
        simp only [List.map_cons, List.singleton_append]
        exact congrArg (List.cons _) (ih ccs)
      · rw [if_neg (show ¬(c.phase = Phase.glide_slope ∧ 0 < 3000.0 - s.x) by
              intro hh; exact hc ⟨hh.1, by linarith [hh.2]⟩),
            if_neg (show ¬(decide ((s, c).2.phase = Phase.glide_slope ∧ (s, c).1.x < 3000.0) =
              true) by simp only [decide_eq_true_eq]; exact hc)]
        rw [List.nil_append]
        exact ih ccs

theorem foldl_max_bounds : ∀ (l : List ℝ) (a : ℝ),
    a ≤ l.foldl max a ∧ ∀ y ∈ l, y ≤ l.foldl max a := by
  intro l
  induction l with
  | nil => exact fun a => ⟨le_refl a, by simp⟩
  | cons b t ih =>
    intro a
    rw [List.foldl_cons]
    refine ⟨le_trans (le_max_left a b) (ih (max a b)).1, ?_⟩
    intro y hy
    rcases List.mem_cons.1 hy with h | h
    · rw [h]
      exact le_trans (le_max_right a b) (ih (max a b)).1
    · exact (ih (max a b)).2 y h

theorem foldl_max_mem : ∀ (l : List ℝ) (a : ℝ),
    l.foldl max a = a ∨ l.foldl max a ∈ l := by
  intro l
  induction l with
  | nil => exact fun a => Or.inl rfl
  | cons b t ih =>
    intro a
    rw [List.foldl_cons]
    rcases ih (max a b) with h | h
    · rcases max_choice a b with hab | hab
      · exact Or.inl (by rw [h, hab])
      · exact Or.inr (by rw [h, hab]; exact List.mem_cons_self b t)
    · exact Or.inr (List.mem_cons_of_mem b h)

theorem eval_perf_empty_errs (times : List ℝ) (states : List SimState) (ctrls : List CtrlOut)
    (fin : SimState) (hlast : states.getLast? = some fin)
    (h : gs_errors states ctrls = []) :
    ∃ p : Perf, evaluate_landing_performance times states ctrls = some p ∧
      p.mean_glide_slope_error_m = 0 ∧ p.max_glide_slope_error_m = 0 := by
  unfold evaluate_landing_performance
  rw [hlast]
  refine ⟨_, rfl, ?_, ?_⟩
  · show (if gs_errors states ctrls = ([] : List ℝ) then (0:ℝ)
        else (gs_errors states ctrls).sum / ((gs_errors states ctrls).length : ℝ)) = 0
    rw [if_pos h]
  · show (if gs_errors states ctrls = ([] : List ℝ) then (0:ℝ)
        else listMax (gs_errors states ctrls)) = 0
    rw [if_pos h]

/-- C8 counterexample: a history with one step whose recorded phase is
`glide_slope` but whose state sits past the 3000 m threshold (x = 3500).
The claim as stated demands a sample `|h - (3000 - x)·tan 3°|` (> 0 here) to
be collected and its value reported as the maximum, but the code's positive-
distance guard skips the step and reports mean = max = 0. -/
theorem C8_gs_error_counterexample :
    (⟨0, 0, Phase.glide_slope⟩ : CtrlOut).phase = Phase.glide_slope ∧
    (∃ p : Perf,
      evaluate_landing_performance [0]
        [⟨30, 0, 0, 0, 3500, 100⟩, ⟨30, 0, 0, 0, 3600, 90⟩]
        [⟨0, 0, Phase.glide_slope⟩] = some p ∧
      p.max_glide_slope_error_m = 0 ∧ p.mean_glide_slope_error_m = 0) ∧
    0 < |(100:ℝ) - (3000.0 - 3500) * Real.tan (deg2rad 3.0)| := by
  have htan : 0 < Real.tan (deg2rad 3.0) := by
    apply Real.tan_pos_of_pos_of_lt_pi_div_two
    · unfold deg2rad
      positivity
    · unfold deg2rad
      nlinarith [Real.pi_pos]
  have herrs : gs_errors [⟨30, 0, 0, 0, 3500, 100⟩, ⟨30, 0, 0, 0, 3600, 90⟩]
      [(⟨0, 0, Phase.glide_slope⟩ : CtrlOut)] = [] := by
    simp only [gs_errors]
    norm_num
  refine ⟨rfl, ?_, ?_⟩
  · obtain ⟨p, hp, hmean, hmax⟩ := eval_perf_empty_errs [0]
      [⟨30, 0, 0, 0, 3500, 100⟩, ⟨30, 0, 0, 0, 3600, 90⟩]
      [⟨0, 0, Phase.glide_slope⟩] ⟨30, 0, 0, 0, 3600, 90⟩ rfl herrs
    exact ⟨p, hp, hmax, hmean⟩
  · rw [abs_pos]
    intro hzero
    nlinarith

/-- C8 amended: `evaluate_landing_performance` collects one sample for every
step whose recorded phase is `glide_slope` AND whose state lies short of the
fixed 3000 m threshold (`x < 3000`, the positive-distance guard the original
claim omits), each sample being `|h - (3000 - x)·tan 3°|` — a threshold
independent of the x_touchdown given to the simulation — and reports the mean
and the maximum of that sample list (0 when it is empty). -/
theorem C8_gs_error_reporting (times : List ℝ) (states : List SimState) (ctrls : List CtrlOut) :
    gs_errors states ctrls = gs_samples_spec states ctrls ∧
    ∀ fin, states.getLast? = some fin →
      ∃ p : Perf, evaluate_landing_performance times states ctrls = some p ∧
        (gs_samples_spec states ctrls = [] →
          p.mean_glide_slope_error_m = 0 ∧ p.max_glide_slope_error_m = 0) ∧
        (∀ e es, gs_samples_spec states ctrls = e :: es →
          p.mean_glide_slope_error_m * ((e :: es).length : ℝ) = (e :: es).sum ∧
          p.max_glide_slope_error_m ∈ e :: es ∧
          ∀ y ∈ e :: es, y ≤ p.max_glide_slope_error_m) := by
  refine ⟨gs_errors_eq_spec states ctrls, ?_⟩
  intro fin hlast
  unfold evaluate_landing_performance
  rw [hlast]
  refine ⟨_, rfl, ?_, ?_⟩
  · intro hempty
    have he : gs_errors states ctrls = [] := (gs_errors_eq_spec states ctrls).trans hempty
    constructor
    · show (if gs_errors states ctrls = ([] : List ℝ) then (0:ℝ) else _) = 0
      rw [if_pos he]
    · show (if gs_errors states ctrls = ([] : List ℝ) then (0:ℝ) else _) = 0
      rw [if_pos he]
  · intro e es hcons
    have he : gs_errors states ctrls = e :: es := (gs_errors_eq_spec states ctrls).trans hcons
    have hne : gs_errors states ctrls ≠ [] := by rw [he]; exact List.cons_ne_nil e es
    refine ⟨?_, ?_, ?_⟩
    · show (if gs_errors states ctrls = ([] : List ℝ) then (0:ℝ)
          else (gs_errors states ctrls).sum / ((gs_errors states ctrls).length : ℝ)) *
          ((e :: es).length : ℝ) = (e :: es).sum
      rw [if_neg hne, he]
      exact div_mul_cancel₀ _ (Nat.cast_ne_zero.mpr (by simp))
    · show (if gs_errors states ctrls = ([] : List ℝ) then (0:ℝ)
          else listMax (gs_errors states ctrls)) ∈ e :: es
      rw [if_neg hne, he]
      show es.foldl max e ∈ e :: es
      rcases foldl_max_mem es e with h | h
      · rw [h]; exact List.mem_cons_self e es
      · exact List.mem_cons_of_mem e h
    · intro y hy
      show y ≤ (if gs_errors states ctrls = ([] : List ℝ) then (0:ℝ)
          else listMax (gs_errors states ctrls))
      rw [if_neg hne, he]
      show y ≤ es.foldl max e
      rcases List.mem_cons.1 hy with h | h
      · exact h ▸ (foldl_max_bounds es e).1
      · exact (foldl_max_bounds es e).2 y h

/-- Witness for C8's amended theorem: a two-state history with one
glide-slope step short of the threshold (x = 2000), so the sample list is the
singleton `|50 - 1000·tan 3°|`. -/
theorem C8_gs_error_reporting_witness :
    ([(⟨30, 0, 0, 0, 2000, 50⟩ : SimState), ⟨30, 0, 0, 0, 2100, 45⟩].getLast? =
      some (⟨30, 0, 0, 0, 2100, 45⟩ : SimState)) ∧
    gs_samples_spec [⟨30, 0, 0, 0, 2000, 50⟩, ⟨30, 0, 0, 0, 2100, 45⟩]
        [⟨0, 0, Phase.glide_slope⟩] =
      [|(50:ℝ) - (3000.0 - 2000) * Real.tan (deg2rad 3.0)|] ∧
    ∃ p : Perf,
      evaluate_landing_performance [0] [⟨30, 0, 0, 0, 2000, 50⟩, ⟨30, 0, 0, 0, 2100, 45⟩]
        [⟨0, 0, Phase.glide_slope⟩] = some p ∧
      p.max_glide_slope_error_m ∈ [|(50:ℝ) - (3000.0 - 2000) * Real.tan (deg2rad 3.0)|] := by
  have hspec : gs_samples_spec [⟨30, 0, 0, 0, 2000, 50⟩, ⟨30, 0, 0, 0, 2100, 45⟩]
      [(⟨0, 0, Phase.glide_slope⟩ : CtrlOut)] =
      [|(50:ℝ) - (3000.0 - 2000) * Real.tan (deg2rad 3.0)|] := by
    unfold gs_samples_spec
    rw [List.zip_cons_cons, List.zip_nil_right, List.filter_cons]
    rw [if_pos (by simp; norm_num)]
    rfl
  refine ⟨rfl, hspec, ?_⟩
  obtain ⟨-, hrest⟩ := C8_gs_error_reporting [0]
    [⟨30, 0, 0, 0, 2000, 50⟩, ⟨30, 0, 0, 0, 2100, 45⟩] [⟨0, 0, Phase.glide_slope⟩]
  obtain ⟨p, hp, -, hchar⟩ := hrest ⟨30, 0, 0, 0, 2100, 45⟩ rfl
  obtain ⟨-, hmem, -⟩ := hchar _ [] hspec
  exact ⟨p, hp, hmem⟩

/-! ## Stability analyzer (stability_analysis.py) -/

section SortDesc

variable {α : Type} (key : α → ℝ)

/-- Stable insertion into a list sorted descending by `key` (the element goes
after every earlier element with an equal or larger key, as Python's stable
`sorted(..., reverse=True)` orders ties). -/
def insertDesc (x : α) : List α → List α
  | [] => [x]
  | h :: t => if key h ≤ key x then x :: h :: t else h :: insertDesc x t

/-- Stable descending sort by `key`. -/
def sortDesc : List α → List α
  | [] => []
  | a :: l => insertDesc key a (sortDesc l)

theorem length_insertDesc (x : α) (l : List α) :
    (insertDesc key x l).length = l.length + 1 := by
  induction l with
  | nil => rfl
  | cons h t ih =>
    unfold insertDesc
    split_ifs
    · rfl
    · simp only [List.length_cons, ih]

theorem mem_insertDesc (x y : α) (l : List α) :
    y ∈ insertDesc key x l ↔ y = x ∨ y ∈ l := by
  induction l with
  | nil => simp [insertDesc]
  | cons h t ih =>
    unfold insertDesc
    split_ifs
    · simp [List.mem_cons]
    · simp only [List.mem_cons, ih]
      tauto

theorem pairwise_insertDesc (x : α) (l : List α)
    (hl : l.Pairwise fun p q => key q ≤ key p) :
    (insertDesc key x l).Pairwise fun p q => key q ≤ key p := by
  induction l with
  | nil => simp [insertDesc]
  | cons h t ih =>
    unfold insertDesc
    rw [List.pairwise_cons] at hl
    split_ifs with hle
    · rw [List.pairwise_cons]
      refine ⟨?_, List.pairwise_cons.2 hl⟩
      intro y hy
      rcases List.mem_cons.1 hy with rfl | hy'
      · exact hle
      · exact le_trans (hl.1 y hy') hle
    · rw [List.pairwise_cons]
      refine ⟨?_, ih hl.2⟩
      intro y hy
      rcases (mem_insertDesc key x y t).1 hy with rfl | hy'
      · exact le_of_lt (not_le.1 hle)
      · exact hl.1 y hy'

theorem length_sortDesc (l : List α) : (sortDesc key l).length = l.length := by
  induction l with
  | nil => rfl
  | cons a l ih =>
    unfold sortDesc
    rw [length_insertDesc, ih]
    rfl

theorem mem_sortDesc (y : α) (l : List α) : y ∈ sortDesc key l ↔ y ∈ l := by
  induction l with
  | nil => exact Iff.rfl
  | cons a l ih =>
    unfold sortDesc
    rw [mem_insertDesc]
    simp only [List.mem_cons, ih]

theorem pairwise_sortDesc (l : List α) :
    (sortDesc key l).Pairwise fun p q => key q ≤ key p := by
  induction l with
  | nil => exact List.Pairwise.nil
  | cons a l ih => exact pairwise_insertDesc key a _ ih

end SortDesc

/-- A complex eigenvalue, as the pair of its real and imaginary parts. -/
structure CEig where
  re : ℝ
  im : ℝ

def csub (a b : CEig) : CEig := ⟨a.re - b.re, a.im - b.im⟩

/-- `np.conj`. -/
def cconj (e : CEig) : CEig := ⟨e.re, -e.im⟩

/-- `np.abs` of a complex number. -/
def cnorm (e : CEig) : ℝ := Real.sqrt (e.re ^ 2 + e.im ^ 2)

/-- `np.isclose` with its default tolerances `rtol = 1e-5`, `atol = 1e-8`:
`|a - b| ≤ atol + rtol * |b|`. -/
def isclose (a b : CEig) : Prop := cnorm (csub a b) ≤ 1e-8 + 1e-5 * cnorm b

/-- One entry of the `modes` dictionary built by
`StabilityAnalyzer.analyze_longitudinal_stability` (lines 38-72).  `none`
stands both for Python's `None`/missing key and for `np.inf`
(`time_constant` when Re(λ) = 0; `period` when Im(λ) = 0, unreachable for
complex-classified modes). -/
structure Mode where
  eig : CEig
  type_complex : Bool
  stable : Prop
  time_constant : Option ℝ
  damping_ratio : Option ℝ
  natural_frequency : Option ℝ
  damped_frequency : Option ℝ
  period : Option ℝ

/-- The dictionary built for a real eigenvalue (lines 39-51). -/
def realMode (e : CEig) : Mode :=
  { eig := e, type_complex := false, stable := e.re < 0,
    time_constant := if e.re = 0 then none else some (-1 / e.re),
    damping_ratio := none, natural_frequency := none,
    damped_frequency := none, period := none }

/-- The dictionary built for a complex eigenvalue (lines 52-72):
`ωn = |λ|`, `ζ = -Re(λ)/ωn`, `ωd = Im(λ)`, period `2π/|ωd|`. -/
def complexMode (e : CEig) : Mode :=
  { eig := e, type_complex := true, stable := e.re < 0,
    time_constant := none,
    damping_ratio := some (-e.re / cnorm e),
    natural_frequency := some (cnorm e),
    damped_frequency := some |e.im|,
    period := if e.im = 0 then none else some (2 * Real.pi / |e.im|) }

/-- The mode-classification loop (lines 38-72): walk the sorted eigenvalue
list; a numerically real eigenvalue yields a real mode; a complex eigenvalue
whose immediate predecessor is (numerically) its conjugate is skipped as the
second half of a conjugate pair; any other complex eigenvalue yields a
complex mode.  `prev` is the previous element of the sorted list. -/
def classify : Option CEig → List CEig → List Mode
  | _, [] => []
  | prev, e :: rest =>
    if e.im = 0 then realMode e :: classify (some e) rest
    else if prev.elim False (fun p => isclose p (cconj e)) then classify (some e) rest
    else complexMode e :: classify (some e) rest

/-- Python's `sorted(..., key=natural_frequency, reverse=True)` key: the
natural frequency of a mode (complex modes always carry one). -/
def omegaKey (m : Mode) : ℝ := m.natural_frequency.getD 0

/-- The result of `analyze_longitudinal_stability`: the classified modes plus
the two aliases. -/
structure ModeSet where
  modes : List Mode
  short_period : Option Mode
  phugoid : Option Mode

/-- `StabilityAnalyzer.analyze_longitudinal_stability` (lines 18-87),
parameterised over the eigenvalue list that `scipy.linalg.eig` returns for
the state matrix (the eigensolver itself is library code outside this
repository).  Eigenvalues are sorted by descending real part (ties:
implementation freedom, embedded as a stable sort), classified, and if at
least two complex modes exist the two with the highest natural frequencies
are aliased `short_period` and `phugoid` (lines 74-86). -/
def analyzeModes (eigs : List CEig) : ModeSet :=
  let sortedEigs := sortDesc (fun e => e.re) eigs
  let ms := classify none sortedEigs
  let cms := ms.filter fun m => m.type_complex
  if 2 ≤ cms.length then
    { modes := ms,
      short_period := (sortDesc omegaKey cms)[0]?,
      phugoid := (sortDesc omegaKey cms)[1]? }
  else
    { modes := ms, short_period := none, phugoid := none }

/-- C5: whenever at least two complex modes exist, `short_period` and
`phugoid` are the first two entries of the complex modes sorted by descending
natural frequency — so `short_period` has the maximal natural frequency among
all complex modes, `phugoid` the next-highest, and in particular
`ωn(phugoid) ≤ ωn(short_period)`; with fewer than two complex modes both
aliases are absent. -/
theorem C5_alias_frequency_order (eigs : List CEig) :
    (2 ≤ ((analyzeModes eigs).modes.filter fun m => m.type_complex).length →
      ∃ sp ph rest,
        (analyzeModes eigs).short_period = some sp ∧
        (analyzeModes eigs).phugoid = some ph ∧
        sortDesc omegaKey ((analyzeModes eigs).modes.filter fun m => m.type_complex) =
          sp :: ph :: rest ∧
        sp ∈ (analyzeModes eigs).modes.filter (fun m => m.type_complex) ∧
        ph ∈ (analyzeModes eigs).modes.filter (fun m => m.type_complex) ∧
        omegaKey ph ≤ omegaKey sp ∧
        (∀ mo ∈ (analyzeModes eigs).modes.filter (fun m => m.type_complex),
          omegaKey mo ≤ omegaKey sp) ∧
        (∀ mo ∈ rest, omegaKey mo ≤ omegaKey ph)) ∧
    (((analyzeModes eigs).modes.filter fun m => m.type_complex).length < 2 →
      (analyzeModes eigs).short_period = none ∧ (analyzeModes eigs).phugoid = none) := by
  unfold analyzeModes
  dsimp only
  split_ifs with h2
  · constructor
    · intro _hlen
      obtain ⟨sp, ph, rest, hsort⟩ : ∃ sp ph rest,
          sortDesc omegaKey ((classify none (sortDesc (fun e => e.re) eigs)).filter
            fun m => m.type_complex) = sp :: ph :: rest := by
        have hl : 2 ≤ (sortDesc omegaKey ((classify none (sortDesc (fun e => e.re) eigs)).filter
            fun m => m.type_complex)).length := by
          rw [length_sortDesc]; exact h2
        rcases hs : sortDesc omegaKey ((classify none (sortDesc (fun e => e.re) eigs)).filter
            fun m => m.type_complex) with _ | ⟨a, _ | ⟨b, t⟩⟩
        · rw [hs] at hl; simp at hl
        · rw [hs] at hl; simp at hl
        · exact ⟨a, b, t, rfl⟩
      have hp := pairwise_sortDesc omegaKey ((classify none (sortDesc (fun e => e.re) eigs)).filter
        fun m => m.type_complex)
      rw [hsort, List.pairwise_cons] at hp
      obtain ⟨hsp_ge, hp'⟩ := hp
      rw [List.pairwise_cons] at hp'
      obtain ⟨hph_ge, -⟩ := hp'
      refine ⟨sp, ph, rest, by rw [hsort]; simp, by rw [hsort]; simp, hsort, ?_, ?_, ?_, ?_, hph_ge⟩
      · exact (mem_sortDesc omegaKey sp _).1 (hsort ▸ List.mem_cons_self sp _)
      · exact (mem_sortDesc omegaKey ph _).1
          (hsort ▸ List.mem_cons_of_mem sp (List.mem_cons_self ph rest))
      · exact hsp_ge ph (List.mem_cons_self ph rest)
      · intro mo hmo
        have hmo' : mo ∈ sp :: ph :: rest := hsort ▸ (mem_sortDesc omegaKey mo _).2 hmo
        rcases List.mem_cons.1 hmo' with rfl | hmo''
        · exact le_refl _
        · exact hsp_ge mo hmo''
    · intro hlt
      exact absurd h2 (not_le.2 hlt)
  · exact ⟨fun hlen => absurd hlen h2, fun _ => ⟨rfl, rfl⟩⟩

/-- The short-period assessment dictionary of
`StabilityAnalyzer.evaluate_handling_qualities` (lines 122-127). -/
structure HQEntrySP where
  damping_ratio : ℝ
  natural_frequency : ℝ
  level : ℕ
  acceptable : Prop

/-- The phugoid assessment dictionary (lines 148-153). -/
structure HQEntryPh where
  damping_ratio : ℝ
  period : Option ℝ
  level : ℕ
  acceptable : Prop

/-- The short-period level bands (lines 113-120). -/
def sp_level (zeta : ℝ) : ℕ :=
  if 0.35 ≤ zeta ∧ zeta ≤ 1.30 then 1
  else if 0.25 ≤ zeta ∧ zeta ≤ 2.00 then 2
  else if 0.15 ≤ zeta then 3
  else 4

/-- The phugoid level bands (lines 139-146).  In the last band the source
computes `np.log(2) / abs(np.real(λ))`; when Re(λ) = 0 this float division
yields `+inf`, which exceeds 55, so the Re(λ) = 0 case is level 3. -/
def ph_level (zeta re : ℝ) : ℕ :=
  if 0.04 ≤ zeta then 1
  else if 0 < zeta then 2
  else if re = 0 then 3
  else if 55 < Real.log 2 / |re| then 3
  else 4

/-- `StabilityAnalyzer.evaluate_handling_qualities` (lines 89-155),
parameterised over the eigenvalue list like `analyzeModes`.  An assessment
entry is emitted for an aliased mode exactly when the alias is present; alias
modes are complex by construction, so their `damping_ratio` and
`natural_frequency` fields are always present (`getD 0` is never exercised on
`none` for a value produced by `analyzeModes`). -/
def evaluate_handling_qualities (eigs : List CEig) :
    Option HQEntrySP × Option HQEntryPh :=
  let modes := analyzeModes eigs
  (modes.short_period.map fun sp =>
     let zeta_sp := sp.damping_ratio.getD 0
     { damping_ratio := zeta_sp,
       natural_frequency := sp.natural_frequency.getD 0,
       level := sp_level zeta_sp,
       acceptable := sp_level zeta_sp ≤ 3 },
   modes.phugoid.map fun ph =>
     let zeta_ph := ph.damping_ratio.getD 0
     { damping_ratio := zeta_ph,
       period := ph.period,
       level := ph_level zeta_ph ph.eig.re,
       acceptable := ph_level zeta_ph ph.eig.re ≤ 3 })

theorem sp_level_iff (z : ℝ) :
    (sp_level z = 1 ↔ 0.35 ≤ z ∧ z ≤ 1.30) ∧
    (sp_level z = 2 ↔ (0.25 ≤ z ∧ z ≤ 2.00) ∧ ¬(0.35 ≤ z ∧ z ≤ 1.30)) ∧
    (sp_level z = 3 ↔ 0.15 ≤ z ∧ ¬(0.25 ≤ z ∧ z ≤ 2.00)) ∧
    (sp_level z = 4 ↔ z < 0.15) := by
  unfold sp_level
  split_ifs with h1 h2 h3
  · exact ⟨iff_of_true rfl h1,
      iff_of_false (by norm_num) (fun hh => hh.2 h1),
      iff_of_false (by norm_num) (fun hh => hh.2 ⟨by linarith [h1.1], by linarith [h1.2]⟩),
      iff_of_false (by norm_num) (fun hh => by linarith [h1.1])⟩
  · exact ⟨iff_of_false (by norm_num) h1,
      iff_of_true rfl ⟨h2, h1⟩,
      iff_of_false (by norm_num) (fun hh => hh.2 h2),
      iff_of_false (by norm_num) (fun hh => by linarith [h2.1])⟩
  · exact ⟨iff_of_false (by norm_num) h1,
      iff_of_false (by norm_num) (fun hh => h2 hh.1),
      iff_of_true rfl ⟨h3, h2⟩,
      iff_of_false (by norm_num) (fun hh => by linarith)⟩
  · exact ⟨iff_of_false (by norm_num) h1,
      iff_of_false (by norm_num) (fun hh => h2 hh.1),
      iff_of_false (by norm_num) (fun hh => h3 hh.1),
      iff_of_true rfl (not_le.1 h3)⟩

theorem ph_level_iff (z re : ℝ) :
    (ph_level z re = 1 ↔ 0.04 ≤ z) ∧
    (ph_level z re = 2 ↔ 0 < z ∧ z < 0.04) ∧
    (ph_level z re = 3 ↔ z ≤ 0 ∧ (re = 0 ∨ 55 < Real.log 2 / |re|)) ∧
    (ph_level z re = 4 ↔ z ≤ 0 ∧ re ≠ 0 ∧ Real.log 2 / |re| ≤ 55) := by
  unfold ph_level
  split_ifs with h1 h2 h3 h4
  · exact ⟨iff_of_true rfl h1,
      iff_of_false (by norm_num) (fun hh => by linarith [hh.2]),
      iff_of_false (by norm_num) (fun hh => by linarith [hh.1]),
      iff_of_false (by norm_num) (fun hh => by linarith [hh.1])⟩
  · exact ⟨iff_of_false (by norm_num) h1,
      iff_of_true rfl ⟨h2, not_le.1 h1⟩,
      iff_of_false (by norm_num) (fun hh => by linarith [hh.1]),
      iff_of_false (by norm_num) (fun hh => by linarith [hh.1])⟩
  · exact ⟨iff_of_false (by norm_num) h1,
      iff_of_false (by norm_num) (fun hh => h2 hh.1),
      iff_of_true rfl ⟨not_lt.1 h2, Or.inl h3⟩,
      iff_of_false (by norm_num) (fun hh => hh.2.1 h3)⟩
  · exact ⟨iff_of_false (by norm_num) h1,
      iff_of_false (by norm_num) (fun hh => h2 hh.1),
      iff_of_true rfl ⟨not_lt.1 h2, Or.inr h4⟩,
      iff_of_false (by norm_num) (fun hh => by linarith [hh.2.2])⟩
  · exact ⟨iff_of_false (by norm_num) h1,
      iff_of_false (by norm_num) (fun hh => h2 hh.1),
      iff_of_false (by norm_num) (fun hh => hh.2.elim h3 (fun hx => h4 hx)),
      iff_of_true rfl ⟨not_lt.1 h2, h3, not_lt.1 h4⟩⟩

/-- C6: the handling-quality assessment emits an entry for an aliased mode
exactly when the alias is present; for a present short-period mode with
damping ratio ζ the level is 1 iff ζ ∈ [0.35, 1.30], else 2 iff
ζ ∈ [0.25, 2.00], else 3 iff ζ ≥ 0.15, else 4; for a present phugoid mode
the level is 1 iff ζ ≥ 0.04, else 2 iff ζ > 0, else 3 iff the time to double
`ln 2 / |Re(λ)|` exceeds 55 s (infinite when Re(λ) = 0), else 4; and each
entry is acceptable iff its level is ≤ 3. -/
theorem C6_handling_quality_bands (eigs : List CEig) :
    ((analyzeModes eigs).short_period = none →
      (evaluate_handling_qualities eigs).1 = none) ∧
    ((analyzeModes eigs).phugoid = none →
      (evaluate_handling_qualities eigs).2 = none) ∧
    (∀ mo, (analyzeModes eigs).short_period = some mo →
      ∃ e : HQEntrySP, (evaluate_handling_qualities eigs).1 = some e ∧
        e.damping_ratio = mo.damping_ratio.getD 0 ∧
        (e.level = 1 ↔ 0.35 ≤ e.damping_ratio ∧ e.damping_ratio ≤ 1.30) ∧
        (e.level = 2 ↔ (0.25 ≤ e.damping_ratio ∧ e.damping_ratio ≤ 2.00) ∧
          ¬(0.35 ≤ e.damping_ratio ∧ e.damping_ratio ≤ 1.30)) ∧
        (e.level = 3 ↔ 0.15 ≤ e.damping_ratio ∧
          ¬(0.25 ≤ e.damping_ratio ∧ e.damping_ratio ≤ 2.00)) ∧
        (e.level = 4 ↔ e.damping_ratio < 0.15) ∧
        (e.acceptable ↔ e.level ≤ 3)) ∧
    (∀ mo, (analyzeModes eigs).phugoid = some mo →
      ∃ e : HQEntryPh, (evaluate_handling_qualities eigs).2 = some e ∧
        e.damping_ratio = mo.damping_ratio.getD 0 ∧
        (e.level = 1 ↔ 0.04 ≤ e.damping_ratio) ∧
        (e.level = 2 ↔ 0 < e.damping_ratio ∧ e.damping_ratio < 0.04) ∧
        (e.level = 3 ↔ e.damping_ratio ≤ 0 ∧
          (mo.eig.re = 0 ∨ 55 < Real.log 2 / |mo.eig.re|)) ∧
        (e.level = 4 ↔ e.damping_ratio ≤ 0 ∧ mo.eig.re ≠ 0 ∧
          Real.log 2 / |mo.eig.re| ≤ 55) ∧
        (e.acceptable ↔ e.level ≤ 3)) := by
  refine ⟨?_, ?_, ?_, ?_⟩
  · intro h
    show ((analyzeModes eigs).short_period.map _) = none
    rw [h]
    rfl
  · intro h
    show ((analyzeModes eigs).phugoid.map _) = none
    rw [h]
    rfl
  · intro mo hmo
    refine ⟨{ damping_ratio := mo.damping_ratio.getD 0,
              natural_frequency := mo.natural_frequency.getD 0,
              level := sp_level (mo.damping_ratio.getD 0),
              acceptable := sp_level (mo.damping_ratio.getD 0) ≤ 3 },
            ?_, rfl, ?_, ?_, ?_, ?_, Iff.rfl⟩
    · show ((analyzeModes eigs).short_period.map _) = some _
      rw [hmo]
      rfl
    · exact (sp_level_iff (mo.damping_ratio.getD 0)).1
    · exact (sp_level_iff (mo.damping_ratio.getD 0)).2.1
    · exact (sp_level_iff (mo.damping_ratio.getD 0)).2.2.1
    · exact (sp_level_iff (mo.damping_ratio.getD 0)).2.2.2
  · intro mo hmo
    refine ⟨{ damping_ratio := mo.damping_ratio.getD 0,
              period := mo.period,
              level := ph_level (mo.damping_ratio.getD 0) mo.eig.re,
              acceptable := ph_level (mo.damping_ratio.getD 0) mo.eig.re ≤ 3 },
            ?_, rfl, ?_, ?_, ?_, ?_, Iff.rfl⟩
    · show ((analyzeModes eigs).phugoid.map _) = some _
      rw [hmo]
      rfl
    · exact (ph_level_iff (mo.damping_ratio.getD 0) mo.eig.re).1
    · exact (ph_level_iff (mo.damping_ratio.getD 0) mo.eig.re).2.1
    · exact (ph_level_iff (mo.damping_ratio.getD 0) mo.eig.re).2.2.1
    · exact (ph_level_iff (mo.damping_ratio.getD 0) mo.eig.re).2.2.2

/-! Concrete evaluation of the analyzer on the eigenvalue list
`[-3±4i, -6±8i]` (two conjugate pairs, natural frequencies 5 and 10),
used by the C5 and C6 witnesses. -/

theorem sqrt25_eq : Real.sqrt 25 = 5 := by
  rw [show (25:ℝ) = 5 ^ 2 by norm_num]
  exact Real.sqrt_sq (by norm_num)

theorem sqrt100_eq : Real.sqrt 100 = 10 := by
  rw [show (100:ℝ) = 10 ^ 2 by norm_num]
  exact Real.sqrt_sq (by norm_num)

theorem complexMode_tc (e : CEig) : (complexMode e).type_complex = true := rfl

theorem omegaKey_complexMode (e : CEig) : omegaKey (complexMode e) = cnorm e := rfl

theorem analyzeModes_modes (eigs : List CEig) :
    (analyzeModes eigs).modes = classify none (sortDesc (fun e => e.re) eigs) := by
  unfold analyzeModes
  dsimp only
  split_ifs <;> rfl

theorem cw_sortE :
    sortDesc (fun e => e.re) ([⟨-3, 4⟩, ⟨-3, -4⟩, ⟨-6, 8⟩, ⟨-6, -8⟩] : List CEig) =
      [⟨-3, 4⟩, ⟨-3, -4⟩, ⟨-6, 8⟩, ⟨-6, -8⟩] := by
  norm_num [sortDesc, insertDesc]

theorem cw_classify :
    classify none ([⟨-3, 4⟩, ⟨-3, -4⟩, ⟨-6, 8⟩, ⟨-6, -8⟩] : List CEig) =
      [complexMode ⟨-3, 4⟩, complexMode ⟨-6, 8⟩] := by
  simp only [classify, isclose, csub, cconj, cnorm, Option.elim]
  norm_num [sqrt25_eq, sqrt100_eq]

theorem cw_analyze :
    analyzeModes ([⟨-3, 4⟩, ⟨-3, -4⟩, ⟨-6, 8⟩, ⟨-6, -8⟩] : List CEig) =
      { modes := [complexMode ⟨-3, 4⟩, complexMode ⟨-6, 8⟩],
        short_period := some (complexMode ⟨-6, 8⟩),
        phugoid := some (complexMode ⟨-3, 4⟩) } := by
  unfold analyzeModes
  dsimp only
  rw [cw_sortE, cw_classify]
  rw [show (([complexMode ⟨-3, 4⟩, complexMode ⟨-6, 8⟩] : List Mode).filter
      fun m => m.type_complex) = [complexMode ⟨-3, 4⟩, complexMode ⟨-6, 8⟩] by
    simp [List.filter_cons, complexMode_tc]]
  rw [if_pos (by norm_num)]
  rw [show sortDesc omegaKey [complexMode ⟨-3, 4⟩, complexMode ⟨-6, 8⟩] =
      [complexMode ⟨-6, 8⟩, complexMode ⟨-3, 4⟩] by
    simp only [sortDesc, insertDesc, omegaKey_complexMode]
    rw [if_neg (by
      show ¬(cnorm ⟨-6, 8⟩ ≤ cnorm ⟨-3, 4⟩)
      unfold cnorm
      norm_num [sqrt25_eq, sqrt100_eq])]]
  rfl

/-- Witness for C5 on the eigenvalue list `[-3±4i, -6±8i]`: two complex
modes exist and the aliases order `ωn = 10` above `ωn = 5`. -/
theorem C5_alias_frequency_order_witness :
    2 ≤ ((analyzeModes ([⟨-3, 4⟩, ⟨-3, -4⟩, ⟨-6, 8⟩, ⟨-6, -8⟩] : List CEig)).modes.filter
        fun m => m.type_complex).length ∧
    ∃ sp ph rest,
      (analyzeModes ([⟨-3, 4⟩, ⟨-3, -4⟩, ⟨-6, 8⟩, ⟨-6, -8⟩] : List CEig)).short_period =
        some sp ∧
      (analyzeModes ([⟨-3, 4⟩, ⟨-3, -4⟩, ⟨-6, 8⟩, ⟨-6, -8⟩] : List CEig)).phugoid = some ph ∧
      sortDesc omegaKey
          ((analyzeModes ([⟨-3, 4⟩, ⟨-3, -4⟩, ⟨-6, 8⟩, ⟨-6, -8⟩] : List CEig)).modes.filter
            fun m => m.type_complex) = sp :: ph :: rest ∧
      sp ∈ (analyzeModes ([⟨-3, 4⟩, ⟨-3, -4⟩, ⟨-6, 8⟩, ⟨-6, -8⟩] : List CEig)).modes.filter
        (fun m => m.type_complex) ∧
      ph ∈ (analyzeModes ([⟨-3, 4⟩, ⟨-3, -4⟩, ⟨-6, 8⟩, ⟨-6, -8⟩] : List CEig)).modes.filter
        (fun m => m.type_complex) ∧
      omegaKey ph ≤ omegaKey sp ∧
      (∀ mo ∈ (analyzeModes ([⟨-3, 4⟩, ⟨-3, -4⟩, ⟨-6, 8⟩, ⟨-6, -8⟩] : List CEig)).modes.filter
        (fun m => m.type_complex), omegaKey mo ≤ omegaKey sp) ∧
      (∀ mo ∈ rest, omegaKey mo ≤ omegaKey ph) := by
  have hlen : 2 ≤ ((analyzeModes ([⟨-3, 4⟩, ⟨-3, -4⟩, ⟨-6, 8⟩, ⟨-6, -8⟩] : List CEig)).modes.filter
      fun m => m.type_complex).length := by
    rw [cw_analyze]
    simp [List.filter_cons, complexMode_tc]
  exact ⟨hlen,
    (C5_alias_frequency_order [⟨-3, 4⟩, ⟨-3, -4⟩, ⟨-6, 8⟩, ⟨-6, -8⟩]).1 hlen⟩

/-- Witness for C6 on the eigenvalue list `[-3±4i, -6±8i]`: both aliases are
present and both assessment entries are emitted. -/
theorem C6_handling_quality_bands_witness :
    (analyzeModes ([⟨-3, 4⟩, ⟨-3, -4⟩, ⟨-6, 8⟩, ⟨-6, -8⟩] : List CEig)).short_period =
      some (complexMode ⟨-6, 8⟩) ∧
    (analyzeModes ([⟨-3, 4⟩, ⟨-3, -4⟩, ⟨-6, 8⟩, ⟨-6, -8⟩] : List CEig)).phugoid =
      some (complexMode ⟨-3, 4⟩) ∧
    (∃ e : HQEntrySP,
      (evaluate_handling_qualities ([⟨-3, 4⟩, ⟨-3, -4⟩, ⟨-6, 8⟩, ⟨-6, -8⟩] : List CEig)).1 =
        some e ∧ (e.acceptable ↔ e.level ≤ 3)) ∧
    (∃ e : HQEntryPh,
      (evaluate_handling_qualities ([⟨-3, 4⟩, ⟨-3, -4⟩, ⟨-6, 8⟩, ⟨-6, -8⟩] : List CEig)).2 =
        some e ∧ (e.acceptable ↔ e.level ≤ 3)) := by
  have hsp : (analyzeModes ([⟨-3, 4⟩, ⟨-3, -4⟩, ⟨-6, 8⟩, ⟨-6, -8⟩] : List CEig)).short_period =
      some (complexMode ⟨-6, 8⟩) := by rw [cw_analyze]
  have hph : (analyzeModes ([⟨-3, 4⟩, ⟨-3, -4⟩, ⟨-6, 8⟩, ⟨-6, -8⟩] : List CEig)).phugoid =
      some (complexMode ⟨-3, 4⟩) := by rw [cw_analyze]
  obtain ⟨-, -, hsp_char, hph_char⟩ :=
    C6_handling_quality_bands [⟨-3, 4⟩, ⟨-3, -4⟩, ⟨-6, 8⟩, ⟨-6, -8⟩]
  obtain ⟨e1, he1, -, -, -, -, -, hacc1⟩ := hsp_char _ hsp
  obtain ⟨e2, he2, -, -, -, -, -, hacc2⟩ := hph_char _ hph
  exact ⟨hsp, hph, ⟨e1, he1, hacc1⟩, ⟨e2, he2, hacc2⟩⟩

end
